import Mathlib

/-!
Verification of the ipfs-cid-hoarder core against its specification.

The development shallowly embeds the Go sources:
* package `cid_source` (JSON-file CID source: `OpenSimpleJSONFile`,
  `OpenEncodedJSONFile`, `OpenMultipleSimpleJSONFiles`, `GetNewCid`);
* package `db` (the `DBClient` channel sink, its persister goroutines and
  `Close`);
* package `hoarder` (the `CidPinger` orchestrator and workers,
  `PingPRHolder`, the `cidQueue`, and the `CidPublisher` worker/listener).

Time is modelled in milliseconds as `Int`.  Go channels, goroutines and
contexts are modelled explicitly where a claim depends on them.  External
parsers (`cid.Parse`, `peer.Decode`, `time.Parse`, multiaddress parsing,
JSON structural parsing) are modelled by their outcome: a raw field carries
`Option` of the parsed value, `none` meaning the parse fails.
-/

namespace cid_source

/-- One `EncapsulatedJSONProviderRecord` of the JSON file.  Each field that
the Go code pipes through an external parser (`cid.Parse`, `peer.Decode`,
`time.ParseDuration`, `time.Parse`, `ma.NewMultiaddr`) is modelled by the
parse outcome: `some v` when the raw string parses to `v`, `none` when the
parser returns an error. -/
structure EncapsulatedJSONProviderRecord where
  CID : Option String
  ID : Option String
  Creator : Option String
  ProvideTime : Option Int
  PublicationTime : Option Int
  UserAgent : String
  Addresses : List (Option String)
deriving DecidableEq, Repr

/-- The `ProviderRecords`: the single JSON field `EncapsulatedJSONProviderRecords`. -/
structure ProviderRecords where
  EncapsulatedJSONProviderRecords : List EncapsulatedJSONProviderRecord
deriving DecidableEq, Repr

/-- A JSON document inside a file, as seen by `json.Unmarshal` / `Decode`:
either it carries the `EncapsulatedJSONProviderRecords` field, or it is
valid JSON without that field, or it is structurally unparseable. -/
inductive JSONDoc where
  | withRecords (rs : List EncapsulatedJSONProviderRecord)
  | withoutField
  | malformed
deriving DecidableEq, Repr

/-- Semantics of decoding one document into an existing `ProviderRecords`
value (`decoder.Decode(&records)` with `records` reused across iterations):
a present field overwrites the slice, an absent field leaves the previous
value in place. -/
def decodeInto (records : ProviderRecords) : JSONDoc → Option ProviderRecords
  | .withRecords rs => some ⟨rs⟩
  | .withoutField => some records
  | .malformed => none

/-- The `for decoder.More()` loop of `OpenEncodedJSONFile` (part_002 of the
db/cid_source file, lines 96-107): `records` is declared once outside the
loop and reused, `filteredRecords` accumulates. -/
def decodeLoop (records filteredRecords : ProviderRecords) :
    List JSONDoc → Except String ProviderRecords
  | [] => .ok filteredRecords
  | d :: ds =>
    match decodeInto records d with
    | none => .error " while decoding encoded json"
    | some records2 =>
      decodeLoop records2
        ⟨filteredRecords.EncapsulatedJSONProviderRecords ++
          records2.EncapsulatedJSONProviderRecords⟩ ds

/-- The `OpenEncodedJSONFile`: stream-decode the concatenated documents of one
file.  (The construction of the `JsonFileCIDSource` wrapper is elided; the
result is the record list it stores.) -/
def OpenEncodedJSONFile (docs : List JSONDoc) : Except String ProviderRecords :=
  decodeLoop ⟨[]⟩ ⟨[]⟩ docs

/-- The `OpenSimpleJSONFile`: `json.Unmarshal` of the whole file into a fresh
`ProviderRecords` (zero value has an empty slice). -/
def OpenSimpleJSONFile (doc : JSONDoc) : Except String ProviderRecords :=
  match decodeInto ⟨[]⟩ doc with
  | none => .error "while trying to unmarshal json file contents"
  | some records => .ok records

/-- The `OpenMultipleSimpleJSONFiles`: unmarshal each file (one document per
simple file) into a fresh `ProviderRecords` and append the lists in order. -/
def OpenMultipleSimpleJSONFiles (docs : List JSONDoc) : Except String ProviderRecords :=
  match docs with
  | [] => .ok ⟨[]⟩
  | d :: ds =>
    match decodeInto ⟨[]⟩ d with
    | none => .error "while trying to unmarshal json file contents"
    | some records =>
      match OpenMultipleSimpleJSONFiles ds with
      | .error e => .error e
      | .ok recordsIn =>
        .ok ⟨records.EncapsulatedJSONProviderRecords ++
              recordsIn.EncapsulatedJSONProviderRecords⟩

/-- The `TrackableCid` as built by `NewTrackableCid(newPid, newCid, newCreator,
multiaddresses, newPublicationTime, newProvideTime, pr.UserAgent)`. -/
structure TrackableCid where
  ID : String
  CID : String
  Creator : String
  Addresses : List String
  PublicationTime : Int
  ProvideTime : Int
  UserAgent : String
deriving DecidableEq, Repr

/-- The `GetNewCid` of the `JsonFileCIDSource`: walk the records through the
iterator; each failing field parser logs and `continue`s to the next record;
multiaddress entries that fail to parse are dropped from the `multiaddresses`
slice (the inner `continue`); the iterator's zero-value record marks the end
of the list, which produces the "end of provider records" error. -/
def GetNewCid : List EncapsulatedJSONProviderRecord → Except String TrackableCid
  | [] => .error "end of provider records"
  | pr :: rest =>
    match pr.CID with
    | none => GetNewCid rest
    | some newCid =>
    match pr.ID with
    | none => GetNewCid rest
    | some newPid =>
    match pr.Creator with
    | none => GetNewCid rest
    | some newCreator =>
    match pr.ProvideTime with
    | none => GetNewCid rest
    | some newProvideTime =>
    match pr.PublicationTime with
    | none => GetNewCid rest
    | some newPublicationTime =>
    let multiaddresses := pr.Addresses.filterMap id
    .ok ⟨newPid, newCid, newCreator, multiaddresses,
          newPublicationTime, newProvideTime, pr.UserAgent⟩

end cid_source

namespace db

/-- Buffer size of the four request channels of the `DBClient`. -/
def bufferSize : Nat := 10000

/-- The `maxPersisters = 1`: one batch of four persister goroutines, one per
record-kind channel (`cidInfoC`, `peerInfoC`, `fetchResultC`,
`pingResultsC`). -/
def maxPersisters : Nat := 1

/-- Number of persister goroutines launched by `runPersisters`: the
`for persister := 1; persister <= maxPersisters` loop starts four goroutines
per iteration. -/
def numPersisterGoroutines : Nat := 4 * maxPersisters

/-- Observable state of one persister goroutine's `for { select { ... } }`
loop: still looping, returned through `case <-db.doneC`, or returned through
`case <-db.ctx.Done()`. -/
inductive PersisterSt where
  | running
  | exitedDone
  | exitedCtx
deriving DecidableEq, Repr

/-- State of the sink during shutdown.  `donePulses` counts values sent on
the unbuffered `doneC` channel that no goroutine has received yet;
`ctxCancelled` reflects the root context; `channelsClosed` records whether
`Close` has executed the four `close(...)` statements. -/
structure SinkState where
  donePulses : Nat
  ctxCancelled : Bool
  persisters : List PersisterSt
  channelsClosed : Bool
deriving DecidableEq, Repr

/-- The `Close()` begins by executing `db.doneC <- struct{}{}`.  `doneC` is
unbuffered, so the send rendezvouses with exactly one receiver; the state
below is the instant the pulse is in flight, all four persisters still in
their select loops. -/
def closeStart : SinkState :=
  { donePulses := 1
    ctxCancelled := false
    persisters := List.replicate numPersisterGoroutines .running
    channelsClosed := false }

/-- Interleaving steps of the shutdown.  `recvDone` is one persister's
`case <-db.doneC` firing: it consumes the single in-flight pulse and the
goroutine returns.  `recvCtx` is `case <-db.ctx.Done()`.  `closeChannels`
is the tail of `Close()`: the four `close(...)` statements run only after
the unbuffered send has completed, i.e. once the pulse has been received. -/
inductive SinkStep : SinkState → SinkState → Prop where
  | recvDone (s : SinkState) (j : Nat)
      (hj : s.persisters[j]? = some .running)
      (hp : 0 < s.donePulses) :
      SinkStep s { s with donePulses := s.donePulses - 1,
                          persisters := s.persisters.set j .exitedDone }
  | recvCtx (s : SinkState) (j : Nat)
      (hc : s.ctxCancelled = true)
      (hj : s.persisters[j]? = some .running) :
      SinkStep s { s with persisters := s.persisters.set j .exitedCtx }
  | closeChannels (s : SinkState)
      (hp : s.donePulses = 0)
      (hcl : s.channelsClosed = false) :
      SinkStep s { s with channelsClosed := true }

/-- Reflexive-transitive closure of `SinkStep`. -/
inductive SinkReach : SinkState → SinkState → Prop where
  | refl (s : SinkState) : SinkReach s s
  | tail {s t u : SinkState} : SinkReach s t → SinkStep t u → SinkReach s u

/-- How many persister goroutines have exited through the `doneC` branch. -/
def countExitedDone (s : SinkState) : Nat :=
  s.persisters.countP (fun p => p = PersisterSt.exitedDone)

end db

namespace p2p

/-- Connection-error tag for a clean connection.  The tag constants live in
`pkg/p2p`; only their identity matters here. -/
def NoConnError : String := "none"

/-- Tag produced by `p2p.ParseConError` for a refused connection. -/
def DialErrorConnectionRefused : String := "connection refused"

/-- Tag produced by `p2p.ParseConError` for a reset stream. -/
def DialErrorStreamReset : String := "stream reset"

/-- The `p2p.ParseConError` classifies a dial error into a tag string.  The
classifier itself lives in `pkg/p2p` outside the embedded sources; errors
are modelled as already-classified tags, so the classifier is the identity
on tags. -/
def ParseConError (err : String) : String := err

end p2p

namespace hoarder

/-- The `DialTimeout = 20 * time.Second`, in milliseconds. -/
def DialTimeout : Int := 20000

/-- The `minIterTime = 500 * time.Millisecond`: the orchestrator's tick. -/
def minIterTime : Int := 500

/-- The `maxDialAttempts = 3`. -/
def maxDialAttempts : Nat := 3

/-- The `models.PeerInfo`: PeerID plus the multiaddresses and user agent
observed on the host's peerstore at discovery time. -/
structure PeerInfo where
  ID : String
  MultiAddrs : List String
  UserAgent : String
deriving DecidableEq, Repr

/-- The `models.PRPingResults` (spec §3): one result per (CID, holder, round). -/
structure PRPingResults where
  Cid : String
  PeerID : String
  Round : Nat
  QueryTime : Int
  QueryDuration : Int
  Active : Bool
  HasRecords : Bool
  ConnError : String
deriving DecidableEq, Repr

/-- The `models.CidFetchResults`: one per (CID, round). -/
structure CidFetchResults where
  Cid : String
  Round : Nat
  StartTime : Int
  FinishTime : Int
  IsRetrievable : Bool
  TotalHops : Int
  HopsTreeDepth : Int
  MinHopsToClosest : Int
  PRPingResults : List PRPingResults
deriving DecidableEq, Repr

/-- The `models.CidInfo`: the per-tracked-CID record.  `CID` is kept in its
key form (the base58 multihash string used for every map in the source). -/
structure CidInfo where
  CID : String
  Creator : String
  K : Nat
  ReqInterval : Int
  PingCounter : Nat
  NextPing : Int
  PRHolders : List PeerInfo
deriving DecidableEq, Repr

/-- Modelled from the spec: `models.CidInfo.AddPRHolder` is not under the
embedded sources; per spec §3 `PRHolders` is a "set of PeerInfo, unique by
PeerID", so the insert is append-if-absent by PeerID. -/
def AddPRHolder (c : CidInfo) (p : PeerInfo) : CidInfo :=
  if c.PRHolders.any (fun h => h.ID = p.ID) then c
  else { c with PRHolders := c.PRHolders ++ [p] }

/-- Modelled from the spec: `models.CidInfo.IncreasePingCounter` is not
under the embedded sources.  It is the only mutation of `PingCounter` and
`NextPing` in the whole pinger flow, called by the orchestrator when it
enqueues a round (part_002 line 113); the spec states the rescheduling rule
as "Update `NextPing := now + ReqInterval`". -/
def IncreasePingCounter (c : CidInfo) (now : Int) : CidInfo :=
  { c with PingCounter := c.PingCounter + 1, NextPing := now + c.ReqInterval }

/-- The `c.GetPingCounter()`. -/
def GetPingCounter (c : CidInfo) : Nat := c.PingCounter

/-- A Go `context.Context`, reduced to what the dial path observes: an
optional deadline instant and an optional cancellation instant. -/
structure GoContext where
  deadline : Option Int
  cancelAt : Option Int
deriving DecidableEq, Repr

/-- The `context.WithTimeout(parent, d)` called at instant `now`: the child's
deadline is `now + d` (capped by the parent's own deadline) and the child is
cancelled whenever the parent is. -/
def withTimeout (parent : GoContext) (now d : Int) : GoContext :=
  { deadline := some (match parent.deadline with
      | none => now + d
      | some pd => min pd (now + d))
    cancelAt := parent.cancelAt }

/-- Whether a context is done (deadline exceeded or cancelled) at instant `t`. -/
def ctxDoneAt (c : GoContext) (t : Int) : Bool :=
  (match c.deadline with
    | some d => decide (d ≤ t)
    | none => false) ||
  (match c.cancelAt with
    | some a => decide (a ≤ t)
    | none => false)

/-- The `PingPRHolder` line 277: `pingCtx, cancel := context.WithTimeout(p.ctx,
DialTimeout)` — created once, before the attempt loop, from the root
context. -/
def pingCtx (root : GoContext) (tstart : Int) : GoContext :=
  withTimeout root tstart DialTimeout

/-- Instant at which dial attempt `k` (0-based) starts: `tstart` plus the
durations of the earlier attempts. -/
def attemptStartTime (tstart : Int) (durs : List Int) (k : Nat) : Int :=
  tstart + (durs.take k).foldl (· + ·) 0

/-- Time left on the dial context when attempt `k` starts.  Every attempt
runs under the same `pingCtx`, so this is the shared deadline minus the
attempt's start instant. -/
def attemptRemainingBudget (root : GoContext) (tstart : Int)
    (durs : List Int) (k : Nat) : Int :=
  (match (pingCtx root tstart).deadline with
    | some d => d
    | none => 0) - attemptStartTime tstart durs k

/-- Outcome of one `p.host.Connect(pingCtx, pAddr)` call, with the error
already classified by `p2p.ParseConError`. -/
inductive ConnResult where
  | ok
  | err (tag : String)
deriving DecidableEq, Repr

/-- Result of the dial-attempt loop of `PingPRHolder`: how many `Connect`
calls were made and the final `active` / `connError` pair. -/
structure PingLoopResult where
  attempts : Nat
  active : Bool
  connError : String
deriving DecidableEq, Repr

/-- The `for att := 0; att < maxDialAttempts; att++` loop of `PingPRHolder`
(part_002 lines 283-320).  `connect k` is the classified outcome of the
`k`-th `Connect` call.  On an error the tag is recorded and the loop breaks
unless the tag is connection-refused or stream-reset; on success `active`
is set, `connError` cleared, the provider request and connection close run,
and the loop breaks. -/
def pingAttemptLoop (connect : Nat → ConnResult) :
    Nat → Nat → Bool → String → PingLoopResult
  | 0, attemptsMade, active, connError => ⟨attemptsMade, active, connError⟩
  | remaining + 1, attemptsMade, active, _ =>
    match connect attemptsMade with
    | .err tag =>
      if tag ≠ p2p.DialErrorConnectionRefused ∧ tag ≠ p2p.DialErrorStreamReset then
        ⟨attemptsMade + 1, active, tag⟩
      else
        pingAttemptLoop connect remaining (attemptsMade + 1) active tag
    | .ok => ⟨attemptsMade + 1, true, p2p.NoConnError⟩

/-- The whole attempt loop as entered by `PingPRHolder`: `att` from 0,
`active = false`, `connError` the zero-value string. -/
def PingPRHolderAttempts (connect : Nat → ConnResult) : PingLoopResult :=
  pingAttemptLoop connect maxDialAttempts 0 false ""

/-- Association-list lookup, used to model the Go maps keyed by the CID's
base58 multihash string. -/
def lookupA {α : Type} : List (String × α) → String → Option α
  | [], _ => none
  | (k, v) :: rest, key => if k = key then some v else lookupA rest key

/-- Association-list update of the first entry with the given key. -/
def updateA {α : Type} : List (String × α) → String → α → List (String × α)
  | [], _, _ => []
  | (k, v) :: rest, key, nv =>
    if k = key then (k, nv) :: rest else (k, v) :: updateA rest key nv

/-- The `delete(map, k)`: remove the entry for `k` (maps have unique keys, so
erasing the first match is the map deletion). -/
def eraseA {α : Type} : List (String × α) → String → List (String × α)
  | [], _ => []
  | (k, v) :: rest, key => if k = key then rest else (k, v) :: eraseA rest key

/-- The `cidQueue` (part_002 lines 338-422): a map from CID key to CidInfo
plus the sortable array over the same objects. -/
structure cidQueue where
  cidMap : List (String × CidInfo)
  cidArray : List CidInfo
deriving Repr

/-- The `q.Len()`: length of `cidArray`. -/
def cidQueue.Len (q : cidQueue) : Nat := q.cidArray.length

/-- The `cidQueue.removeCid` (part_002 lines 368-386): delete the key from the
map; if the array length is one, replace the array by a fresh empty slice;
otherwise scan the array for the entry with the key and splice it out. -/
def cidQueue.removeCid (q : cidQueue) (cStr : String) : cidQueue :=
  let cidMap := eraseA q.cidMap cStr
  if q.Len = 1 then { cidMap := cidMap, cidArray := [] }
  else
    match q.cidArray.findIdx? (fun c => c.CID = cStr) with
    | none => { cidMap := cidMap, cidArray := q.cidArray }
    | some item =>
      { cidMap := cidMap
        cidArray := q.cidArray.take item ++ q.cidArray.drop (item + 1) }

/-!
The orchestrator's per-tick scan (part_002 lines 91-139) iterates
`range p.cidQ.cidArray` while `removeCid` mutates the same slice.  A Go
`range` statement snapshots the slice header (pointer and length) once,
but reads each element from the shared backing array, and
`append(arr[:i], arr[i+1:]...)` shifts the elements of that same backing
array in place, leaving a stale duplicate of the last element behind the
shortened logical length.  The model below therefore separates the heap of
`CidInfo` objects (`store`, indexed by object id — the Go pointers) from
the physical backing array of ids (`backing`, whose length never changes
during a pass) and the logical length of `q.cidArray` (`logical`).
-/

/-- State of one orchestrator tick over the queue. -/
structure OrchState where
  store : List CidInfo
  backing : List Nat
  logical : Nat
  cidMapKeys : List String
  enqueued : List Nat
deriving Repr

/-- Object-id lookup of an array index inside the current logical front
of the backing, mirroring the `for idx, c := range q.cidArray` search of
`removeCid`. -/
def findIdxByKey (store : List CidInfo) (backing : List Nat)
    (logical : Nat) (cStr : String) : Option Nat :=
  (backing.take logical).findIdx? (fun cId =>
    match store.get? cId with
    | some c => c.CID = cStr
    | none => false)

/-- The `removeCid` as it acts during the scan, on the aliased backing array:
the in-place `append` copies positions `item+1 .. logical-1` one slot down
and leaves position `logical-1` (and everything after it) untouched. -/
def removeCidAliased (s : OrchState) (cStr : String) : OrchState :=
  let cidMapKeys := s.cidMapKeys.erase cStr
  if s.logical = 1 then { s with cidMapKeys := cidMapKeys, logical := 0 }
  else
    match findIdxByKey s.store s.backing s.logical cStr with
    | none => { s with cidMapKeys := cidMapKeys }
    | some item =>
      { s with
        cidMapKeys := cidMapKeys
        backing := s.backing.take item ++
          (s.backing.drop (item + 1)).take (s.logical - 1 - item) ++
          s.backing.drop (s.logical - 1)
        logical := s.logical - 1 }

/-- The `c.IncreasePingCounter()` performed on the heap object `cId`. -/
def increasePingCounterAt (s : OrchState) (cId : Nat) (now : Int) : OrchState :=
  match s.store.get? cId with
  | none => s
  | some c => { s with store := s.store.set cId (IncreasePingCounter c now) }

/-- Ping counter of the heap object `cId` as the orchestrator reads it. -/
def counterAt (s : OrchState) (cId : Nat) : Nat :=
  match s.store.get? cId with
  | some c => c.PingCounter
  | none => 0

/-- One orchestrator pass over the indices of the snapshotted `range`
(part_002 lines 99-126): read the element at the index from the (possibly
mutated) backing, break on the first element whose `NextPing` is in the
future, otherwise increment its counter, send it on `pingTaskC`, and remove
it from the queue when the counter reached `rounds`. -/
def orchTickGo (now : Int) (rounds : Nat) :
    List Nat → OrchState → OrchState
  | [], s => s
  | idx :: rest, s =>
    match s.backing.get? idx with
    | none => s
    | some cId =>
      match s.store.get? cId with
      | none => s
      | some c =>
        if now < c.NextPing then s
        else
          let s1 := increasePingCounterAt s cId now
          let s2 := { s1 with enqueued := s1.enqueued ++ [cId] }
          let s3 := if rounds ≤ counterAt s2 cId
            then removeCidAliased s2 c.CID else s2
          orchTickGo now rounds rest s3

/-- One tick of the orchestrator: the `range` snapshot covers the indices
`0 .. len(cidArray)-1` taken at loop entry. -/
def orchTick (now : Int) (rounds : Nat) (s : OrchState) : OrchState :=
  orchTickGo now rounds (List.range s.backing.length) s

/-- Timing data of one pinger round for a CID: the instant the orchestrator
increments the counter and sends the task, the wait in `pingTaskC`, and the
duration of the joined lookup/probe sub-tasks. -/
structure PingRoundExec where
  enqueueTime : Int
  dequeueDelay : Int
  probeDuration : Int
deriving DecidableEq, Repr

/-- The pinger worker's handling of one task (part_002 lines 159-241):
open a `CidFetchResults` for the round, join the three sub-tasks, set
`FinishTime`, and hand the result to `dbCli.AddFetchResult`.  The worker
never touches `NextPing`. -/
def workerProcessTask (c : CidInfo) (startTime probeDuration : Int) :
    CidFetchResults :=
  { Cid := c.CID
    Round := GetPingCounter c
    StartTime := startTime
    FinishTime := startTime + probeDuration
    IsRetrievable := false
    TotalHops := 0
    HopsTreeDepth := 0
    MinHopsToClosest := 0
    PRPingResults := [] }

/-- One full round for a CID: the orchestrator's `IncreasePingCounter` and
enqueue at `enqueueTime` (part_002 lines 113-115), then the worker's
processing.  Returns the CID's state after the round and the submitted
fetch result. -/
def runPingRound (c : CidInfo) (e : PingRoundExec) : CidInfo × CidFetchResults :=
  let c1 := IncreasePingCounter c e.enqueueTime
  let fetchRes := workerProcessTask c1 (e.enqueueTime + e.dequeueDelay) e.probeDuration
  (c1, fetchRes)

/-- The `models.NewCidInfo(cid, K, reqInterval, cidPingTime, provOp, hostID)`:
fresh CidInfo with empty `PRHolders`, zero counter, the host as creator. -/
def NewCidInfo (key creator : String) (k : Nat) (reqInterval : Int) : CidInfo :=
  { CID := key
    Creator := creator
    K := k
    ReqInterval := reqInterval
    PingCounter := 0
    NextPing := 0
    PRHolders := [] }

/-- The `models.NewCidFetchResults(cid, pubTime, 0, K)`: the round-0 slot
opened by the publisher at `pubTime`. -/
def NewCidFetchResults (key : String) (startTime : Int) (round : Nat) :
    CidFetchResults :=
  { Cid := key
    Round := round
    StartTime := startTime
    FinishTime := 0
    IsRetrievable := false
    TotalHops := 0
    HopsTreeDepth := 0
    MinHopsToClosest := 0
    PRPingResults := [] }

/-- The `models.CidFetchResults.AddPRPingResults`: append one per-holder
result to the round's list. -/
def AddPRPingResults (fr : CidFetchResults) (r : PRPingResults) : CidFetchResults :=
  { fr with PRPingResults := fr.PRPingResults ++ [r] }

/-- Observable actions of `publishingProcess` for one CID, in program
order. -/
inductive PubEvent where
  | cidSetAdd (key : String)
  | fetchResStore (key : String)
  | provideCid (key : String)
  | waitOnDoneC (key : String)
  | dbAddCidInfo (key : String)
  | dbAddFetchResult (key : String)
deriving DecidableEq, Repr

/-- Shared state touched by one publisher worker: the `cidSet` (modelled
from the spec: a concurrent map from CID key-form to CidInfo with insert
and lookup — `pkg/hoarder/cid_set.go` is not under the embedded sources),
the `firstCidFetchRes` sync.Map, and the trace of emitted events. -/
structure PubState where
  cidSet : List (String × CidInfo)
  firstCidFetchRes : List (String × CidFetchResults)
  events : List PubEvent
deriving Repr

/-- The `publishingProcess` lines 674-685: build the CidInfo and
`publisher.cidSet.addCid(cidInfo)`. -/
def pubStageAddCid (st : PubState) (key creator : String) (k : Nat)
    (reqInterval : Int) : PubState :=
  { st with
    cidSet := st.cidSet ++ [(key, NewCidInfo key creator k reqInterval)]
    events := st.events ++ [.cidSetAdd key] }

/-- The `publishingProcess` lines 686-689: open the round-0 fetch-result slot
and `cidFetchRes.Store(cidStr, fetchRes)`. -/
def pubStageStoreFetchRes (st : PubState) (key : String) (pubTime : Int) :
    PubState :=
  { st with
    firstCidFetchRes := st.firstCidFetchRes ++ [(key, NewCidFetchResults key pubTime 0)]
    events := st.events ++ [.fetchResStore key] }

/-- The state of the shared maps at the instant
`publisher.host.ProvideCid(publisher.ctx, cidInfo)` is invoked
(line 691): both insertions of lines 685 and 689 have executed. -/
def pubStateAtProvide (st : PubState) (key creator : String) (k : Nat)
    (reqInterval : Int) (pubTime : Int) : PubState :=
  pubStageStoreFetchRes (pubStageAddCid st key creator k reqInterval) key pubTime

/-- The whole per-CID body of `publishingProcess` (lines 670-718), as the
trace of its observable actions: insert into the cidSet, store the
round-0 slot, issue the provide call, wait on `DoneC`, and submit CidInfo
and fetch result to the sink. -/
def publishSingleCid (st : PubState) (key creator : String) (k : Nat)
    (reqInterval : Int) (pubTime : Int) : PubState :=
  let st2 := pubStateAtProvide st key creator k reqInterval pubTime
  { st2 with
    events := st2.events ++
      [.provideCid key, .waitOnDoneC key, .dbAddCidInfo key, .dbAddFetchResult key] }

/-- Message types of the DHT message notifier; only `ADD_PROVIDER` is
consumed. -/
inductive MsgType where
  | ADD_PROVIDER
  | other
deriving DecidableEq, Repr

/-- The `p2p.MsgNotification` as read by the listener: message type, remote
peer, the key (already cast to a CID key string), query instants, and the
optional error, carried as its `ParseConError` tag. -/
structure MsgNotification where
  MsgTy : MsgType
  RemotePeer : String
  Key : String
  QueryTime : Int
  QueryDuration : Int
  Error : Option String
deriving DecidableEq, Repr

/-- Value of the listener's `active` flag: true exactly when the
notification carries no error (`if msgNot.Error != nil` branch of
part_002 lines 571-583). -/
def listenerActive (e : Option String) : Bool :=
  match e with
  | some _ => false
  | none => true

/-- Value of the listener's `connError` tag: the classified error, or
`NoConnError` on success. -/
def listenerConnError (e : Option String) : String :=
  match e with
  | some err => p2p.ParseConError err
  | none => p2p.NoConnError

/-- The shared maps as the listener sees them. -/
structure ListenerState where
  cidSet : List (String × CidInfo)
  firstCidFetchRes : List (String × CidFetchResults)
deriving Repr

/-- One iteration of `addProviderMsgListener` on a received notification
(part_002 lines 560-630).  Non-`ADD_PROVIDER` messages are skipped.  A
missing CidInfo or fetch-result slot is a `log.Panic` (modelled as an
error).  Otherwise: `active`/`connError` are chosen from the notification's
error, the round-0 ping result is appended to the slot, and a `PeerInfo`
built from the host's peerstore is added to the CidInfo's `PRHolders` —
the source performs `cidInfo.AddPRHolder(prHolderInfo)` on both branches
of the error check. -/
def addProviderMsgProcess (maddrs : String → List String)
    (ua : String → String) (st : ListenerState) (msgNot : MsgNotification) :
    Except String ListenerState :=
  match msgNot.MsgTy with
  | .other => .ok st
  | .ADD_PROVIDER =>
    let active : Bool := listenerActive msgNot.Error
    let connError : String := listenerConnError msgNot.Error
    match lookupA st.cidSet msgNot.Key with
    | none => .error "unable to find CidInfo on CidSet"
    | some cidInfo =>
      match lookupA st.firstCidFetchRes msgNot.Key with
      | none => .error "CidFetcher not found"
      | some cidFetRes =>
        let pingRes : PRPingResults :=
          { Cid := msgNot.Key
            PeerID := msgNot.RemotePeer
            Round := 0
            QueryTime := msgNot.QueryTime
            QueryDuration := msgNot.QueryDuration
            Active := active
            HasRecords := false
            ConnError := connError }
        let cidFetRes2 := AddPRPingResults cidFetRes pingRes
        let prHolderInfo : PeerInfo :=
          ⟨msgNot.RemotePeer, maddrs msgNot.RemotePeer, ua msgNot.RemotePeer⟩
        let cidInfo2 := AddPRHolder cidInfo prHolderInfo
        .ok { cidSet := updateA st.cidSet msgNot.Key cidInfo2
              firstCidFetchRes := updateA st.firstCidFetchRes msgNot.Key cidFetRes2 }

end hoarder

namespace cid_source

/-- Decoding a stream of documents that all carry the records field
appends each document's records to the accumulator, independently of the
reused `records` variable. -/
theorem decodeLoop_withRecords
    (rss : List (List EncapsulatedJSONProviderRecord))
    (records filt : ProviderRecords) :
    decodeLoop records filt (rss.map .withRecords) =
      .ok ⟨filt.EncapsulatedJSONProviderRecords ++ rss.flatten⟩ := by
  induction rss generalizing records filt with
  | nil => simp [decodeLoop]
  | cons rs rss ih =>
    simp [decodeLoop, decodeInto, ih, List.append_assoc]

/-- Opening each simple-form document separately and concatenating in
order yields the flattened record list. -/
theorem openMultipleSimple_withRecords
    (rss : List (List EncapsulatedJSONProviderRecord)) :
    OpenMultipleSimpleJSONFiles (rss.map .withRecords) = .ok ⟨rss.flatten⟩ := by
  induction rss with
  | nil => rfl
  | cons rs rss ih =>
    simp [OpenMultipleSimpleJSONFiles, decodeInto, ih]

/-- Claim C8: opening one encoded file containing N concatenated JSON
documents (each of the simple form, carrying the
`EncapsulatedJSONProviderRecords` field) yields exactly the same ordered
list of provider records as opening N simple JSON files, one document
each, and concatenating their lists in order. -/
theorem c8_encoded_file_equals_simple_concat
    (rss : List (List EncapsulatedJSONProviderRecord)) :
    OpenEncodedJSONFile (rss.map .withRecords) =
      OpenMultipleSimpleJSONFiles (rss.map .withRecords) ∧
    OpenEncodedJSONFile (rss.map .withRecords) = .ok ⟨rss.flatten⟩ := by
  have he : OpenEncodedJSONFile (rss.map .withRecords) = .ok ⟨rss.flatten⟩ := by
    simpa [OpenEncodedJSONFile] using decodeLoop_withRecords rss ⟨[]⟩ ⟨[]⟩
  exact ⟨he.trans (openMultipleSimple_withRecords rss).symm, he⟩

/-- A provider record whose scalar fields all parse but whose `Addresses`
list contains an unparseable multiaddress string. -/
def c9BadAddrRecord : EncapsulatedJSONProviderRecord :=
  { CID := some "c"
    ID := some "p"
    Creator := some "cr"
    ProvideTime := some 12
    PublicationTime := some 0
    UserAgent := "ua"
    Addresses := [none] }

/-- Claim C9 counterexample: the claim says a record with ANY malformed
individual field is skipped; but a record whose only malformed field is a
multiaddress entry in `Addresses` is NOT skipped — `GetNewCid` returns it
(with the bad address silently dropped by the inner `continue`) instead of
reporting "end of provider records". -/
theorem c9_counterexample :
    c9BadAddrRecord.Addresses = [none] ∧
    GetNewCid [c9BadAddrRecord] = .ok ⟨"p", "c", "cr", [], 0, 12, "ua"⟩ := by
  exact ⟨rfl, rfl⟩

/-- Claim C9 (amended): a record with a malformed CID, peer-ID, creator,
provide-time or publication-time field is skipped and iteration continues
with the next record; a malformed entry in `Addresses` is dropped from
the record without skipping it; and only a structurally unparseable JSON
file makes the source constructor fail, while a well-formed document
always opens. -/
theorem c9_field_error_policy :
    (∀ (pr : EncapsulatedJSONProviderRecord)
        (rest : List EncapsulatedJSONProviderRecord),
      pr.CID = none ∨ pr.ID = none ∨ pr.Creator = none ∨
        pr.ProvideTime = none ∨ pr.PublicationTime = none →
      GetNewCid (pr :: rest) = GetNewCid rest) ∧
    (∀ (pr : EncapsulatedJSONProviderRecord)
        (rest : List EncapsulatedJSONProviderRecord)
        (c i cr : String) (pt pub : Int),
      pr.CID = some c → pr.ID = some i → pr.Creator = some cr →
      pr.ProvideTime = some pt → pr.PublicationTime = some pub →
      GetNewCid (pr :: rest) =
        .ok ⟨i, c, cr, pr.Addresses.filterMap id, pub, pt, pr.UserAgent⟩) ∧
    (OpenSimpleJSONFile .malformed =
      .error "while trying to unmarshal json file contents") ∧
    (∀ rs, OpenSimpleJSONFile (.withRecords rs) = .ok ⟨rs⟩) := by
  refine ⟨?_, ?_, rfl, fun rs => rfl⟩
  · intro pr rest h
    rcases pr with ⟨pcid, pid, pcr, ppt, ppub, pua, paddr⟩
    rcases pcid with _ | c <;> rcases pid with _ | i <;>
      rcases pcr with _ | cr <;> rcases ppt with _ | pt <;>
      rcases ppub with _ | pub <;> simp_all [GetNewCid]
  · intro pr rest c i cr pt pub h1 h2 h3 h4 h5
    rcases pr with ⟨pcid, pid, pcr, ppt, ppub, pua, paddr⟩
    simp only at h1 h2 h3 h4 h5
    subst h1; subst h2; subst h3; subst h4; subst h5
    rfl

/-- A record with an unparseable creator field, used to witness the skip
branch of `c9_field_error_policy`. -/
def c9SkipRecord : EncapsulatedJSONProviderRecord :=
  { CID := some "c2"
    ID := some "p2"
    Creator := none
    ProvideTime := some 7
    PublicationTime := some 3
    UserAgent := "ua2"
    Addresses := [some "addr"] }

/-- Witness for `c9_field_error_policy` at concrete records. -/
theorem c9_field_error_policy_witness :
    GetNewCid [c9SkipRecord] = GetNewCid [] ∧
    GetNewCid [c9BadAddrRecord] = .ok ⟨"p", "c", "cr", [], 0, 12, "ua"⟩ ∧
    OpenSimpleJSONFile (.withRecords [c9SkipRecord]) = .ok ⟨[c9SkipRecord]⟩ := by
  refine ⟨c9_field_error_policy.1 c9SkipRecord []
      (Or.inr (Or.inr (Or.inl rfl))), ?_, c9_field_error_policy.2.2.2 _⟩
  have h := c9_field_error_policy.2.1 c9BadAddrRecord [] "c" "p" "cr" 12 0
    rfl rfl rfl rfl rfl
  simpa using h

end cid_source

namespace hoarder

/-- Erasing one key of an association list leaves lookups of every other
key unchanged. -/
theorem lookupA_eraseA_ne {α : Type} (m : List (String × α)) (k k2 : String)
    (h : k2 ≠ k) : lookupA (eraseA m k) k2 = lookupA m k2 := by
  induction m with
  | nil => rfl
  | cons p rest ih =>
    rcases p with ⟨pk, pv⟩
    by_cases hk : pk = k
    · subst hk
      have hne : pk ≠ k2 := fun he => h (he ▸ rfl)
      simp [eraseA, lookupA, hne]
    · by_cases h2 : pk = k2 <;> simp [eraseA, lookupA, hk, h2, h, ih]

/-- Claim C10: on a `cidQueue` whose `cidArray` holds exactly one element,
`removeCid k` empties `cidArray` for every key `k` — also for a key that
does not match the stored element — while the map deletion touches only
the entry for `k`; so removing a non-matching key from a one-element queue
leaves the element present in `cidMap` but absent from `cidArray`. -/
theorem c10_removeCid_singleton_empties_array (q : cidQueue) (k : String)
    (c : CidInfo) (hq : q.cidArray = [c]) (hk : c.CID ≠ k)
    (hm : lookupA q.cidMap c.CID = some c) :
    (q.removeCid k).cidArray = [] ∧
    lookupA (q.removeCid k).cidMap c.CID = some c := by
  have hlen : q.Len = 1 := by simp [cidQueue.Len, hq]
  refine ⟨?_, ?_⟩
  · simp [cidQueue.removeCid, hlen]
  · simpa [cidQueue.removeCid, hlen, lookupA_eraseA_ne _ _ _ hk] using hm

/-- A concrete one-element queue, for the witness of
`c10_removeCid_singleton_empties_array`. -/
def c10cid : CidInfo :=
  { CID := "QmOnly"
    Creator := "h"
    K := 20
    ReqInterval := 1000
    PingCounter := 0
    NextPing := 0
    PRHolders := [] }

/-- Witness for `c10_removeCid_singleton_empties_array`: removing the
non-matching key "QmOther" from the one-element queue holding "QmOnly". -/
theorem c10_removeCid_singleton_witness :
    (cidQueue.removeCid ⟨[("QmOnly", c10cid)], [c10cid]⟩ "QmOther").cidArray = [] ∧
    lookupA (cidQueue.removeCid ⟨[("QmOnly", c10cid)], [c10cid]⟩ "QmOther").cidMap
      "QmOnly" = some c10cid :=
  c10_removeCid_singleton_empties_array ⟨[("QmOnly", c10cid)], [c10cid]⟩
    "QmOther" c10cid rfl (by decide) rfl

/-- The attempt loop makes at most `made + remaining` Connect calls. -/
theorem pingAttemptLoop_le (connect : Nat → ConnResult) :
    ∀ (rem made : Nat) (a : Bool) (ce : String),
      (pingAttemptLoop connect rem made a ce).attempts ≤ made + rem := by
  intro rem
  induction rem with
  | zero => intro made a ce; simp [pingAttemptLoop]
  | succ n ih =>
    intro made a ce
    simp only [pingAttemptLoop]
    cases hc : connect made with
    | ok => simp
    | err tag =>
      by_cases ht : tag ≠ p2p.DialErrorConnectionRefused ∧
          tag ≠ p2p.DialErrorStreamReset
      · simp [ht]
      · simp [ht]
        exact le_trans (ih (made + 1) a tag) (by omega)

/-- Whenever the loop goes on to a further attempt, the previous attempt
failed with a connection-refused or stream-reset tag. -/
theorem pingAttemptLoop_retry_reason (connect : Nat → ConnResult) :
    ∀ (rem made : Nat) (a : Bool) (ce : String) (k : Nat),
      made ≤ k →
      k + 1 < (pingAttemptLoop connect rem made a ce).attempts →
      ∃ tag, connect k = .err tag ∧
        (tag = p2p.DialErrorConnectionRefused ∨
          tag = p2p.DialErrorStreamReset) := by
  intro rem
  induction rem with
  | zero =>
    intro made a ce k hmk h
    simp [pingAttemptLoop] at h
    omega
  | succ n ih =>
    intro made a ce k hmk h
    simp only [pingAttemptLoop] at h
    cases hc : connect made with
    | ok => rw [hc] at h; simp at h; omega
    | err tag =>
      rw [hc] at h
      by_cases ht : tag ≠ p2p.DialErrorConnectionRefused ∧
          tag ≠ p2p.DialErrorStreamReset
      · simp [ht] at h; omega
      · simp [ht] at h
        rcases Nat.eq_or_lt_of_le hmk with heq | hlt
        · subst heq
          refine ⟨tag, hc, ?_⟩
          by_cases hr : tag = p2p.DialErrorConnectionRefused
          · exact Or.inl hr
          · right
            by_contra hs
            exact ht ⟨hr, hs⟩
        · exact ih (made + 1) a tag k hlt h

/-- A successful Connect call ends the loop at once and marks the holder
active. -/
theorem pingAttemptLoop_success_stops (connect : Nat → ConnResult) :
    ∀ (rem made : Nat) (a : Bool) (ce : String) (k : Nat),
      made ≤ k → connect k = .ok →
      k < (pingAttemptLoop connect rem made a ce).attempts →
      (pingAttemptLoop connect rem made a ce).attempts = k + 1 ∧
      (pingAttemptLoop connect rem made a ce).active = true := by
  intro rem
  induction rem with
  | zero =>
    intro made a ce k hmk hok h
    simp [pingAttemptLoop] at h
    omega
  | succ n ih =>
    intro made a ce k hmk hok h
    simp only [pingAttemptLoop] at h ⊢
    cases hc : connect made with
    | ok =>
      rw [hc] at h
      simp at h ⊢
      omega
    | err tag =>
      rw [hc] at h
      by_cases ht : tag ≠ p2p.DialErrorConnectionRefused ∧
          tag ≠ p2p.DialErrorStreamReset
      · simp [ht] at h ⊢
        rcases Nat.eq_or_lt_of_le hmk with heq | hlt
        · subst heq; rw [hok] at hc; cases hc
        · omega
      · simp [ht] at h ⊢
        rcases Nat.eq_or_lt_of_le hmk with heq | hlt
        · subst heq; rw [hok] at hc; cases hc
        · exact ih (made + 1) a tag k hlt hok h

/-- An error outside the two retryable tags ends the loop at once. -/
theorem pingAttemptLoop_terminal_stops (connect : Nat → ConnResult) :
    ∀ (rem made : Nat) (a : Bool) (ce : String) (k : Nat) (tag : String),
      made ≤ k → connect k = .err tag →
      tag ≠ p2p.DialErrorConnectionRefused →
      tag ≠ p2p.DialErrorStreamReset →
      k < (pingAttemptLoop connect rem made a ce).attempts →
      (pingAttemptLoop connect rem made a ce).attempts = k + 1 := by
  intro rem
  induction rem with
  | zero =>
    intro made a ce k tag hmk herr hr hs h
    simp [pingAttemptLoop] at h
    omega
  | succ n ih =>
    intro made a ce k tag hmk herr hr hs h
    simp only [pingAttemptLoop] at h ⊢
    cases hc : connect made with
    | ok =>
      rw [hc] at h
      rcases Nat.eq_or_lt_of_le hmk with heq | hlt
      · subst heq; rw [herr] at hc
      · simp at h
        omega
    | err tag2 =>
      rw [hc] at h
      by_cases ht : tag2 ≠ p2p.DialErrorConnectionRefused ∧
          tag2 ≠ p2p.DialErrorStreamReset
      · simp [ht] at h ⊢
        omega
      · simp [ht] at h ⊢
        rcases Nat.eq_or_lt_of_le hmk with heq | hlt
        · subst heq
          rw [herr] at hc
          cases hc
          exact absurd ht (by exact fun hmm => hmm ⟨hr, hs⟩)
        · exact ih (made + 1) a tag2 k tag hlt herr hr hs h

/-- Claim C5: for every per-holder probe at most `maxDialAttempts` (3)
dial attempts are made; a further attempt follows a failed one only when
the classified error is connection-refused or stream-reset; any other
dial error is terminal for the probe; and a successful dial ends the
attempt loop (and marks the holder active). -/
theorem c5_dial_attempt_policy (connect : Nat → ConnResult) :
    (PingPRHolderAttempts connect).attempts ≤ maxDialAttempts ∧
    (∀ k, k + 1 < (PingPRHolderAttempts connect).attempts →
      ∃ tag, connect k = .err tag ∧
        (tag = p2p.DialErrorConnectionRefused ∨
          tag = p2p.DialErrorStreamReset)) ∧
    (∀ k tag, k < (PingPRHolderAttempts connect).attempts →
      connect k = .err tag → tag ≠ p2p.DialErrorConnectionRefused →
      tag ≠ p2p.DialErrorStreamReset →
      (PingPRHolderAttempts connect).attempts = k + 1) ∧
    (∀ k, k < (PingPRHolderAttempts connect).attempts → connect k = .ok →
      (PingPRHolderAttempts connect).attempts = k + 1 ∧
      (PingPRHolderAttempts connect).active = true) := by
  refine ⟨?_, ?_, ?_, ?_⟩
  · simpa [PingPRHolderAttempts, maxDialAttempts] using
      pingAttemptLoop_le connect maxDialAttempts 0 false ""
  · intro k h
    exact pingAttemptLoop_retry_reason connect maxDialAttempts 0 false ""
      k (Nat.zero_le k) h
  · intro k tag h herr hr hs
    exact pingAttemptLoop_terminal_stops connect maxDialAttempts 0 false ""
      k tag (Nat.zero_le k) herr hr hs h
  · intro k h hok
    exact pingAttemptLoop_success_stops connect maxDialAttempts 0 false ""
      k (Nat.zero_le k) hok h

/-- Connect oracle of the spec's dial-attempt scenario: connection refused
once, then success. -/
def c5connect : Nat → ConnResult := fun k =>
  if k = 0 then .err p2p.DialErrorConnectionRefused else .ok

/-- Witness for `c5_dial_attempt_policy`: under `c5connect` the probe
makes two attempts, the retry is justified by the refused tag of attempt
0, and the success at attempt 1 ends the loop with the holder active. -/
theorem c5_dial_attempt_policy_witness :
    (PingPRHolderAttempts c5connect).attempts ≤ maxDialAttempts ∧
    (∃ tag, c5connect 0 = .err tag ∧
      (tag = p2p.DialErrorConnectionRefused ∨
        tag = p2p.DialErrorStreamReset)) ∧
    (PingPRHolderAttempts c5connect).attempts = 2 ∧
    (PingPRHolderAttempts c5connect).active = true := by
  have h := c5_dial_attempt_policy c5connect
  refine ⟨h.1, h.2.1 0 (by decide), ?_, ?_⟩
  · exact (h.2.2.2 1 (by decide) rfl).1
  · exact (h.2.2.2 1 (by decide) rfl).2

/-- A root context that is neither cancelled nor deadlined. -/
def c4root : GoContext := ⟨none, none⟩

/-- A root context cancelled at instant 3000. -/
def c4cancelledRoot : GoContext := ⟨none, some 3000⟩

/-- Claim C4 counterexample: the claim says each dial attempt runs under
its own `DialTimeout` deadline, independent of the root context.  But the
dial context is created once before the attempt loop: when attempt 0
consumed 15 s, attempt 1 starts with only 5 s of budget instead of a fresh
20 s; and cancelling the root context at t = 3000 ms makes the dial
context done at 3000 ms, long before its 20000 ms deadline, cutting the
in-flight dial short. -/
theorem c4_counterexample :
    attemptRemainingBudget c4root 0 [15000] 1 = 5000 ∧
    DialTimeout = 20000 ∧
    ctxDoneAt (pingCtx c4cancelledRoot 0) 3000 = true ∧
    (3000 : Int) < DialTimeout := by
  refine ⟨by decide, by decide, by decide, by decide⟩

/-- Claim C4 (amended): `PingPRHolder` derives one single dial context
from the root context before the attempt loop; its deadline is
`tstart + DialTimeout` for the whole probe, root cancellation propagates
into it, and the budget left for attempt `k` is `DialTimeout` minus the
time consumed by the earlier attempts. -/
theorem c4_single_shared_dial_context (root : GoContext) (tstart : Int)
    (durs : List Int) (k : Nat) (hroot : root.deadline = none) :
    (pingCtx root tstart).deadline = some (tstart + DialTimeout) ∧
    (pingCtx root tstart).cancelAt = root.cancelAt ∧
    attemptRemainingBudget root tstart durs k =
      DialTimeout - (durs.take k).foldl (· + ·) 0 := by
  refine ⟨?_, rfl, ?_⟩ <;>
    simp [pingCtx, withTimeout, hroot, attemptRemainingBudget,
      attemptStartTime]

/-- Witness for `c4_single_shared_dial_context` at a concrete root context
and attempt durations. -/
theorem c4_single_shared_dial_context_witness :
    (pingCtx ⟨none, some 7⟩ 5).deadline = some (5 + DialTimeout) ∧
    (pingCtx ⟨none, some 7⟩ 5).cancelAt = (⟨none, some 7⟩ : GoContext).cancelAt ∧
    attemptRemainingBudget ⟨none, some 7⟩ 5 [100, 200] 2 =
      DialTimeout - ([100, 200].take 2).foldl (· + ·) 0 :=
  c4_single_shared_dial_context ⟨none, some 7⟩ 5 [100, 200] 2 rfl

/-- The CID of the C3 scenario: `ReqInterval` of 1000 ms. -/
def c3cid : CidInfo :=
  { CID := "QmC3"
    Creator := "h"
    K := 20
    ReqInterval := 1000
    PingCounter := 0
    NextPing := 0
    PRHolders := [] }

/-- Round timing of the C3 scenario: enqueued at t = 0, no queue wait,
probes take 5000 ms (well within `DialTimeout`). -/
def c3exec : PingRoundExec := ⟨0, 0, 5000⟩

/-- Claim C3 counterexample: the claim says that after the worker sets the
round's `FinishTime`, `NextPing` equals `FinishTime + ReqInterval` up to
one scheduler tick.  But `NextPing` is set by `IncreasePingCounter` at
enqueue time, before the probes run: in this round it is 1000 while
`FinishTime + ReqInterval` is 6000, a gap of 5000 ms — ten ticks. -/
theorem c3_counterexample :
    (runPingRound c3cid c3exec).1.NextPing = 1000 ∧
    (runPingRound c3cid c3exec).2.FinishTime = 5000 ∧
    ((runPingRound c3cid c3exec).2.FinishTime + c3cid.ReqInterval) -
      (runPingRound c3cid c3exec).1.NextPing = 5000 ∧
    minIterTime < (5000 : Int) := by
  refine ⟨by decide, by decide, by decide, by decide⟩

/-- Claim C3 (amended): the CID's `NextPing` for round r is set by the
orchestrator's `IncreasePingCounter` at the instant the round is enqueued
— before the worker runs, not after it submits — to that instant plus
`ReqInterval`; hence `NextPing` equals `FinishTime + ReqInterval` minus
the queue wait and probe duration of the round, and it never exceeds
`FinishTime + ReqInterval`. -/
theorem c3_nextPing_set_at_enqueue (c : CidInfo) (e : PingRoundExec)
    (hd : 0 ≤ e.dequeueDelay) (hp : 0 ≤ e.probeDuration) :
    (runPingRound c e).1.NextPing = e.enqueueTime + c.ReqInterval ∧
    (runPingRound c e).2.FinishTime =
      e.enqueueTime + e.dequeueDelay + e.probeDuration ∧
    (runPingRound c e).1.NextPing =
      ((runPingRound c e).2.FinishTime + c.ReqInterval) -
        (e.dequeueDelay + e.probeDuration) ∧
    (runPingRound c e).1.NextPing ≤
      (runPingRound c e).2.FinishTime + c.ReqInterval := by
  refine ⟨?_, ?_, ?_, ?_⟩ <;>
    simp [runPingRound, IncreasePingCounter, workerProcessTask] <;> omega

/-- Witness for `c3_nextPing_set_at_enqueue` at the concrete C3 round. -/
theorem c3_nextPing_set_at_enqueue_witness :
    (runPingRound c3cid c3exec).1.NextPing =
      c3exec.enqueueTime + c3cid.ReqInterval ∧
    (runPingRound c3cid c3exec).1.NextPing ≤
      (runPingRound c3cid c3exec).2.FinishTime + c3cid.ReqInterval := by
  have h := c3_nextPing_set_at_enqueue c3cid c3exec (by decide) (by decide)
  exact ⟨h.1, h.2.2.2⟩

/-- Initial queue of the C6 scenario: three CIDs, all due at tick instant
0 (`NextPing = 0`), `ReqInterval` 1000 ms; the first has already been
pinged twice, the others never. -/
def c6start : OrchState :=
  { store :=
      [ { CID := "Qm0", Creator := "h", K := 20, ReqInterval := 1000,
          PingCounter := 2, NextPing := 0, PRHolders := [] },
        { CID := "Qm1", Creator := "h", K := 20, ReqInterval := 1000,
          PingCounter := 0, NextPing := 0, PRHolders := [] },
        { CID := "Qm2", Creator := "h", K := 20, ReqInterval := 1000,
          PingCounter := 0, NextPing := 0, PRHolders := [] } ]
    backing := [0, 1, 2]
    logical := 3
    cidMapKeys := ["Qm0", "Qm1", "Qm2"]
    enqueued := [] }

/-- Claim C6 evaluated at the failing input (`rounds = 3`, tick at
`now = 0`): all three CIDs are due, yet the tick enqueues only ids 0 and 2
and leaves the due CID `Qm1` (id 1) with its counter untouched — removing
`Qm0` mid-`range` shifts the slice backing under the loop, so index 1 now
reads `Qm2` and the due `Qm1` is never visited on this tick, contradicting
the claim that every due CidInfo is incremented and enqueued. -/
theorem c6_scan_skips_due_cid :
    ((c6start.store.get? 1).map CidInfo.NextPing = some 0) ∧
    (orchTick 0 3 c6start).enqueued = [0, 2] ∧
    counterAt (orchTick 0 3 c6start) 1 = 0 ∧
    ((orchTick 0 3 c6start).enqueued.contains 1) = false := by
  refine ⟨by decide, by decide, by decide, by decide⟩

/-- Appending an entry for a key at the end of an association list makes
the key resolvable. -/
theorem lookupA_append_singleton_isSome {α : Type} (l : List (String × α))
    (k : String) (v : α) : (lookupA (l ++ [(k, v)]) k).isSome = true := by
  induction l with
  | nil => simp [lookupA]
  | cons p rest ih =>
    rcases p with ⟨pk, pv⟩
    by_cases h : pk = k <;> simp [lookupA, h, ih]

/-- Claim C7: for every CID drawn by a publisher worker, the CidInfo is
inserted into the CidSet and the round-0 CidFetchResults slot is stored in
the shared map strictly before the Provide call is issued — both keys
resolve in the state at which `ProvideCid` runs, and in the emitted event
trace the `cidSetAdd` and `fetchResStore` events precede `provideCid`. -/
theorem c7_insertions_precede_provide (st : PubState) (key creator : String)
    (k : Nat) (reqInterval pubTime : Int) :
    (lookupA (pubStateAtProvide st key creator k reqInterval pubTime).cidSet
      key).isSome = true ∧
    (lookupA (pubStateAtProvide st key creator k reqInterval
      pubTime).firstCidFetchRes key).isSome = true ∧
    (publishSingleCid st key creator k reqInterval pubTime).events =
      st.events ++ [.cidSetAdd key, .fetchResStore key, .provideCid key,
        .waitOnDoneC key, .dbAddCidInfo key, .dbAddFetchResult key] := by
  refine ⟨?_, ?_, ?_⟩
  · simpa [pubStateAtProvide, pubStageStoreFetchRes, pubStageAddCid] using
      lookupA_append_singleton_isSome st.cidSet key
        (NewCidInfo key creator k reqInterval)
  · simpa [pubStateAtProvide, pubStageStoreFetchRes, pubStageAddCid] using
      lookupA_append_singleton_isSome st.firstCidFetchRes key
        (NewCidFetchResults key pubTime 0)
  · simp [publishSingleCid, pubStateAtProvide, pubStageStoreFetchRes,
      pubStageAddCid]

/-- Updating an entry of an association list makes later lookups of its
key return the new value, provided the key was present. -/
theorem lookupA_updateA_self {α : Type} (m : List (String × α))
    (k : String) (v0 v : α) (h : lookupA m k = some v0) :
    lookupA (updateA m k v) k = some v := by
  induction m with
  | nil => simp [lookupA] at h
  | cons p rest ih =>
    rcases p with ⟨pk, pv⟩
    by_cases hk : pk = k
    · simp [lookupA, updateA, hk]
    · simp [lookupA, updateA, hk] at h ⊢
      exact ih h

/-- The CidInfo tracked under "QmC1" in the C1 scenario. -/
def c1cid : CidInfo :=
  { CID := "QmC1"
    Creator := "h"
    K := 20
    ReqInterval := 1000
    PingCounter := 0
    NextPing := 0
    PRHolders := [] }

/-- Listener state of the C1 scenario: "QmC1" is tracked, its round-0
fetch-result slot exists, and its `PRHolders` is empty. -/
def c1state : ListenerState :=
  { cidSet := [("QmC1", c1cid)]
    firstCidFetchRes := [("QmC1", NewCidFetchResults "QmC1" 0 0)] }

/-- An ADD_PROVIDER notification for "QmC1" that carries a non-nil error. -/
def c1msg : MsgNotification :=
  { MsgTy := .ADD_PROVIDER
    RemotePeer := "peer1"
    Key := "QmC1"
    QueryTime := 10
    QueryDuration := 5
    Error := some "protocol mismatch" }

/-- Claim C1 counterexample: the claim says a notification with a non-nil
error leaves `PRHolders` unchanged; but processing the erroring
notification `c1msg` grows the tracked CID's `PRHolders` from `[]` to the
remote peer's PeerInfo — the source adds the PR holder on both branches of
the error check. -/
theorem c1_counterexample :
    c1msg.Error = some "protocol mismatch" ∧
    c1cid.PRHolders = [] ∧
    (addProviderMsgProcess (fun _ => ["maddr1"]) (fun _ => "agent1")
        c1state c1msg).map
      (fun st2 => (lookupA st2.cidSet "QmC1").map CidInfo.PRHolders) =
      .ok (some [⟨"peer1", ["maddr1"], "agent1"⟩]) := by
  refine ⟨rfl, rfl, rfl⟩

/-- Claim C1 (amended): for every ADD_PROVIDER notification processed by
the listener for a tracked CID, a PeerInfo for the remote peer (peerstore
multiaddresses and user agent) is added to the CidInfo's `PRHolders`
regardless of whether the notification carries an error; the error only
selects the `Active` flag (true exactly on no error) and the `ConnError`
tag of the synthesized round-0 ping result. -/
theorem c1_holder_added_regardless_of_error
    (maddrs : String → List String) (ua : String → String)
    (st : ListenerState) (msgNot : MsgNotification)
    (cidInfo : CidInfo) (cidFetRes : CidFetchResults)
    (hty : msgNot.MsgTy = .ADD_PROVIDER)
    (h1 : lookupA st.cidSet msgNot.Key = some cidInfo)
    (h2 : lookupA st.firstCidFetchRes msgNot.Key = some cidFetRes) :
    addProviderMsgProcess maddrs ua st msgNot = .ok
      { cidSet := updateA st.cidSet msgNot.Key (AddPRHolder cidInfo
          ⟨msgNot.RemotePeer, maddrs msgNot.RemotePeer, ua msgNot.RemotePeer⟩)
        firstCidFetchRes := updateA st.firstCidFetchRes msgNot.Key
          (AddPRPingResults cidFetRes
            ⟨msgNot.Key, msgNot.RemotePeer, 0, msgNot.QueryTime,
              msgNot.QueryDuration, listenerActive msgNot.Error, false,
              listenerConnError msgNot.Error⟩) } ∧
    (∀ st2, addProviderMsgProcess maddrs ua st msgNot = .ok st2 →
      lookupA st2.cidSet msgNot.Key = some (AddPRHolder cidInfo
        ⟨msgNot.RemotePeer, maddrs msgNot.RemotePeer,
          ua msgNot.RemotePeer⟩)) ∧
    listenerActive msgNot.Error = msgNot.Error.isNone := by
  have hmain : addProviderMsgProcess maddrs ua st msgNot = .ok
      { cidSet := updateA st.cidSet msgNot.Key (AddPRHolder cidInfo
          ⟨msgNot.RemotePeer, maddrs msgNot.RemotePeer, ua msgNot.RemotePeer⟩)
        firstCidFetchRes := updateA st.firstCidFetchRes msgNot.Key
          (AddPRPingResults cidFetRes
            ⟨msgNot.Key, msgNot.RemotePeer, 0, msgNot.QueryTime,
              msgNot.QueryDuration, listenerActive msgNot.Error, false,
              listenerConnError msgNot.Error⟩) } := by
    simp [addProviderMsgProcess, hty, h1, h2]
  refine ⟨hmain, ?_, ?_⟩
  · intro st2 hst2
    rw [hmain] at hst2
    cases hst2
    exact lookupA_updateA_self st.cidSet msgNot.Key cidInfo _ h1
  · cases he : msgNot.Error <;> simp [listenerActive, he]

/-- Witness for `c1_holder_added_regardless_of_error` at the concrete C1
scenario (an erroring notification for a tracked CID). -/
theorem c1_holder_added_witness :
    (∀ st2, addProviderMsgProcess (fun _ => ["maddr1"]) (fun _ => "agent1")
        c1state c1msg = .ok st2 →
      lookupA st2.cidSet c1msg.Key = some (AddPRHolder c1cid
        ⟨c1msg.RemotePeer, ["maddr1"], "agent1"⟩)) ∧
    listenerActive c1msg.Error = c1msg.Error.isNone := by
  have h := c1_holder_added_regardless_of_error (fun _ => ["maddr1"])
    (fun _ => "agent1") c1state c1msg c1cid (NewCidFetchResults "QmC1" 0 0)
    rfl rfl rfl
  exact ⟨h.2.1, h.2.2⟩

end hoarder

namespace db

/-- Setting a running slot to `exitedDone` raises the exited-via-done
count by one. -/
theorem countDone_set_done (l : List PersisterSt) (j : Nat)
    (h : l[j]? = some .running) :
    (l.set j .exitedDone).countP (fun p => p = PersisterSt.exitedDone) =
      l.countP (fun p => p = PersisterSt.exitedDone) + 1 := by
  induction l generalizing j with
  | nil => simp at h
  | cons x xs ih =>
    cases j with
    | zero =>
      simp at h
      subst h
      simp [List.countP_cons]
    | succ n =>
      simp at h
      simp [List.countP_cons, ih n h]
      omega

/-- Setting a running slot to `exitedCtx` leaves the exited-via-done count
unchanged. -/
theorem countDone_set_ctx (l : List PersisterSt) (j : Nat)
    (h : l[j]? = some .running) :
    (l.set j .exitedCtx).countP (fun p => p = PersisterSt.exitedDone) =
      l.countP (fun p => p = PersisterSt.exitedDone) := by
  induction l generalizing j with
  | nil => simp at h
  | cons x xs ih =>
    cases j with
    | zero =>
      simp at h
      subst h
      simp [List.countP_cons]
    | succ n =>
      simp at h
      simp [List.countP_cons, ih n h]

/-- Shutdown invariant: in every state reachable from `Close()`'s single
send, the persisters exited via `doneC` plus the pulses still in flight
total exactly one, and the root context stays uncancelled. -/
theorem sinkReach_invariant (s : SinkState)
    (h : SinkReach closeStart s) :
    countExitedDone s + s.donePulses = 1 ∧ s.ctxCancelled = false := by
  induction h with
  | refl => exact ⟨by decide, rfl⟩
  | tail hr hs ih =>
    rcases ih with ⟨hsum, hctx⟩
    cases hs with
    | recvDone j hj hp =>
      refine ⟨?_, hctx⟩
      simp only [countExitedDone] at hsum ⊢
      rw [countDone_set_done _ j hj]
      omega
    | recvCtx j hc hj =>
      rw [hc] at hctx
      cases hctx
    | closeChannels hp hcl =>
      exact ⟨hsum, hctx⟩

/-- Claim C2 counterexample: the claim says the single pulse sent on
`doneC` by `Close()` is delivered to all four persister goroutines.  In
no reachable shutdown state have all four persisters exited via `doneC`:
a send on an unbuffered channel is received by exactly one goroutine. -/
theorem c2_counterexample :
    ¬ ∃ s : SinkState, SinkReach closeStart s ∧
      countExitedDone s = numPersisterGoroutines := by
  rintro ⟨s, hr, hc⟩
  have h := (sinkReach_invariant s hr).1
  rw [hc] at h
  simp [numPersisterGoroutines, maxPersisters] at h
  omega

/-- Claim C2 (amended): the single `done` pulse of `Close()` is received
by exactly one of the four persister goroutines — at most one persister
ever exits via `doneC`, and there is a shutdown run in which one persister
has exited via `doneC` before the four write channels are closed while
the other three are still in their select loops. -/
theorem c2_single_done_pulse_reaches_one_persister :
    (∀ s : SinkState, SinkReach closeStart s → countExitedDone s ≤ 1) ∧
    (∃ s : SinkState, SinkReach closeStart s ∧ countExitedDone s = 1 ∧
      s.channelsClosed = true ∧
      s.persisters.countP (fun p => p = PersisterSt.running) = 3) := by
  constructor
  · intro s hr
    have h := (sinkReach_invariant s hr).1
    omega
  · refine ⟨_, SinkReach.tail (SinkReach.tail (SinkReach.refl _)
      (SinkStep.recvDone closeStart 0 (by decide) (by decide)))
      (SinkStep.closeChannels _ (by decide) (by decide)),
      by decide, by decide, by decide⟩

end db
